import Mathlib

/-!
Verification of the core simulation loop of the Telegram 3D Plane Game
(`src/script.js`).  The per-frame functions `updateControls`, `updatePlane`
and `updateMountains`, together with the input-event handlers, are embedded
shallowly over the real numbers.  Randomness (`Math.random()` draws) is
modelled by explicit real-valued parameters, constrained to `[0, 1)` where a
claim depends on the range of the generator.
-/

noncomputable section

namespace PlaneGame

/-- A 3-component vector, mirroring `THREE.Vector3`. -/
structure V3 where
  x : ℝ
  y : ℝ
  z : ℝ
  deriving DecidableEq

/-- Distance moved forward each frame (`const forwardSpeed = 0.2`). -/
def forwardSpeed : ℝ := 0.2

/-- Rotation increment per held control per frame (`const rotationSpeed = 0.02`). -/
def rotationSpeed : ℝ := 0.02

/-- Rotation of a vector about the z-axis by angle `t` (column convention of
`THREE.Matrix4.makeRotationZ`). -/
def rotZv (t : ℝ) (v : V3) : V3 :=
  ⟨Real.cos t * v.x - Real.sin t * v.y, Real.sin t * v.x + Real.cos t * v.y, v.z⟩

/-- Rotation of a vector about the y-axis by angle `t`. -/
def rotYv (t : ℝ) (v : V3) : V3 :=
  ⟨Real.cos t * v.x + Real.sin t * v.z, v.y, -Real.sin t * v.x + Real.cos t * v.z⟩

/-- Rotation of a vector about the x-axis by angle `t`. -/
def rotXv (t : ℝ) (v : V3) : V3 :=
  ⟨v.x, Real.cos t * v.y - Real.sin t * v.z, Real.sin t * v.y + Real.cos t * v.z⟩

/-- Application of a rotation given by intrinsic Euler angles in Three.js'
default `XYZ` order (the rotation matrix is `Rx * Ry * Rz`), as performed by
`applyQuaternion` with `plane.quaternion` synchronised from `plane.rotation`. -/
def eulerXYZ (rx ry rz : ℝ) (v : V3) : V3 := rotXv rx (rotYv ry (rotZv rz v))

/-- Euclidean length of a vector (`THREE.Vector3.length`). -/
def length (v : V3) : ℝ := Real.sqrt (v.x ^ 2 + v.y ^ 2 + v.z ^ 2)

/-- `THREE.Vector3.normalize`: divides by `length() || 1`, so a zero vector is
divided by `1` and stays zero. -/
def normalize (v : V3) : V3 :=
  let l := length v
  let d := if l = 0 then 1 else l
  ⟨v.x / d, v.y / d, v.z / d⟩

/-- The mutable transform state of the plane group: its position and its Euler
rotation.  The game only ever writes `rotation.y` and `rotation.z`; `rotation.x`
is carried along for faithfulness and stays `0`. -/
structure PlaneState where
  pos : V3
  rotX : ℝ
  rotY : ℝ
  rotZ : ℝ

/-- The world-space forward direction of the plane, from `updatePlane`:
local `+x` rotated by the plane's quaternion, then normalised. -/
def forwardVec (p : PlaneState) : V3 :=
  normalize (eulerXYZ p.rotX p.rotY p.rotZ ⟨1, 0, 0⟩)

/-- The `keys` object: a partial mapping from event codes to booleans.  `none`
models the absence of an entry in the JavaScript object. -/
def Keys : Type := String → Option Bool

/-- JavaScript truthiness of `keys[code]`: a missing entry reads as `false`. -/
def isHeld (k : Keys) (c : String) : Bool := (k c).getD false

/-- The `keydown` listener: `keys[event.code] = true` for any code. -/
def keydownEvent (code : String) (k : Keys) : Keys :=
  fun c => if c = code then some true else k c

/-- The `keyup` listener: `keys[event.code] = false` for any code. -/
def keyupEvent (code : String) (k : Keys) : Keys :=
  fun c => if c = code then some false else k c

/-- The `setKey(state)` closure of `bindControlButton`: `keys[code] = state`. -/
def setKey (code : String) (state : Bool) (k : Keys) : Keys :=
  fun c => if c = code then some state else k c

/-- Handler bound to `pointerdown` in `bindControlButton`. -/
def pointerdownEvent (code : String) (k : Keys) : Keys := setKey code true k

/-- Handler bound to `pointerup` in `bindControlButton`. -/
def pointerupEvent (code : String) (k : Keys) : Keys := setKey code false k

/-- Handler bound to `pointerleave` in `bindControlButton`. -/
def pointerleaveEvent (code : String) (k : Keys) : Keys := setKey code false k

/-- Handler bound to `pointercancel` in `bindControlButton`. -/
def pointercancelEvent (code : String) (k : Keys) : Keys := setKey code false k

/-- The eight event codes the per-frame reader `updateControls` consults. -/
def recognizedCodes : List String :=
  ["KeyA", "ArrowLeft", "KeyD", "ArrowRight", "KeyW", "ArrowUp", "KeyS", "ArrowDown"]

/-- `updateControls()`: yaw with A/ArrowLeft and D/ArrowRight, pitch with
W/ArrowUp and S/ArrowDown, each test an inclusive-or of the two bindings. -/
def updateControls (k : Keys) (p : PlaneState) : PlaneState :=
  let ry1 := if isHeld k "KeyA" || isHeld k "ArrowLeft" then p.rotY + rotationSpeed else p.rotY
  let ry2 := if isHeld k "KeyD" || isHeld k "ArrowRight" then ry1 - rotationSpeed else ry1
  let rz1 := if isHeld k "KeyW" || isHeld k "ArrowUp" then p.rotZ + rotationSpeed else p.rotZ
  let rz2 := if isHeld k "KeyS" || isHeld k "ArrowDown" then rz1 - rotationSpeed else rz1
  { p with rotY := ry2, rotZ := rz2 }

/-- `updatePlane()`: advance along the normalised forward vector by
`forwardSpeed`, then clamp altitude with the two `if`s of the source. -/
def updatePlane (p : PlaneState) : PlaneState :=
  let f := forwardVec p
  let px := p.pos.x + forwardSpeed * f.x
  let py0 := p.pos.y + forwardSpeed * f.y
  let pz := p.pos.z + forwardSpeed * f.z
  let py1 := if py0 < 0.5 then 0.5 else py0
  let py2 := if py1 > 20 then 20 else py1
  { p with pos := ⟨px, py2, pz⟩ }

/-- One mountain marker: its mesh position, its uniform scale factor
(overwritten, not composed, by `scale.set`), and the immutable construction
height recorded in `geometry.parameters.height`. -/
structure Mountain where
  pos : V3
  scale : ℝ
  geomHeight : ℝ

/-- The body of the recycling branch of `updateMountains`, with the two
`Math.random()` draws passed in as `rz` and `rh`. -/
def recycleMountain (rz rh : ℝ) (m : Mountain) : Mountain :=
  let newX := m.pos.x + 400
  let newZ := rz * 40 - 20
  let newHeight := rh * 3 + 1
  let s := newHeight / m.geomHeight
  { m with pos := ⟨newX, newHeight * s / 2 - 0.5, newZ⟩, scale := s }

/-- Per-marker step of `updateMountains`: recycle exactly when the marker is
more than 100 units behind the plane. -/
def updateMountain (planeX rz rh : ℝ) (m : Mountain) : Mountain :=
  if planeX - m.pos.x > 100 then recycleMountain rz rh m else m

/-- `const MOUNTAIN_COUNT = 50`. -/
def MOUNTAIN_COUNT : ℕ := 50

/-- The mutable state touched by one frame: the plane and the fixed pool of
mountain markers. -/
structure GameState where
  plane : PlaneState
  mountains : Fin MOUNTAIN_COUNT → Mountain

/-- The plane-only part of one frame: `updateControls()` then `updatePlane()`. -/
def planeTick (k : Keys) (p : PlaneState) : PlaneState := updatePlane (updateControls k p)

/-- One frame of the animation loop restricted to simulation state:
`updateControls()`, `updatePlane()`, then `updateMountains()` reading the
already-updated plane position.  `rnd i` supplies the marker's two
`Math.random()` draws (z first, then height) should it recycle. -/
def tick (k : Keys) (rnd : Fin MOUNTAIN_COUNT → ℝ × ℝ) (s : GameState) : GameState :=
  let p1 := planeTick k s.plane
  { plane := p1,
    mountains := fun i => updateMountain p1.pos.x (rnd i).1 (rnd i).2 (s.mountains i) }

/-- World-space height of a marker's cone: construction height times scale. -/
def visualHeight (m : Mountain) : ℝ := m.geomHeight * m.scale

/-- World-space y of the base of a marker's cone (the cone is centred on its
mesh position, so the base sits half the visual height below it).  The ground
plane of the scene lies at `y = -0.5`. -/
def baseY (m : Mountain) : ℝ := m.pos.y - visualHeight m / 2

/-- Trajectory of game states under a stream of per-frame inputs. -/
def trajFrom (inputs : ℕ → Keys × (Fin MOUNTAIN_COUNT → ℝ × ℝ)) (s : GameState) : ℕ → GameState
  | 0 => s
  | n + 1 => tick (inputs n).1 (inputs n).2 (trajFrom inputs s n)

/-- Closed form of the altitude produced by `updatePlane`: the two source
`if`s amount to clamping into `[0.5, 20]`. -/
theorem updatePlane_y (p : PlaneState) :
    (updatePlane p).pos.y = min 20 (max 0.5 (p.pos.y + forwardSpeed * (forwardVec p).y)) := by
  unfold updatePlane
  dsimp only
  split_ifs with h1 h2 h2
  · norm_num at h2
  · rw [max_eq_left h1.le, min_eq_right (by norm_num)]
  · rw [max_eq_right (le_trans (by norm_num) (not_lt.mp h1)), min_eq_left h2.le]
  · rw [max_eq_right (le_trans (by norm_num) (not_lt.mp h1)), min_eq_right (not_lt.mp h2)]

/-- Components of `updatePlane` other than the clamped altitude. -/
theorem updatePlane_x (p : PlaneState) :
    (updatePlane p).pos.x = p.pos.x + forwardSpeed * (forwardVec p).x := rfl

theorem updatePlane_z (p : PlaneState) :
    (updatePlane p).pos.z = p.pos.z + forwardSpeed * (forwardVec p).z := rfl

theorem updatePlane_rotX (p : PlaneState) : (updatePlane p).rotX = p.rotX := rfl

theorem updatePlane_rotY (p : PlaneState) : (updatePlane p).rotY = p.rotY := rfl

theorem updatePlane_rotZ (p : PlaneState) : (updatePlane p).rotZ = p.rotZ := rfl

theorem updateControls_pos (k : Keys) (p : PlaneState) :
    (updateControls k p).pos = p.pos := rfl

theorem updateControls_rotX (k : Keys) (p : PlaneState) :
    (updateControls k p).rotX = p.rotX := rfl

/-- C1.  For every frame, every prior aircraft state and every combination of
held controls, after the Position Integrator (`updatePlane`) runs the
altitude satisfies `0.5 ≤ y ≤ 20`. -/
theorem C1_altitude_always_clamped (k : Keys) (p : PlaneState) :
    0.5 ≤ (planeTick k p).pos.y ∧ (planeTick k p).pos.y ≤ 20 := by
  unfold planeTick
  rw [updatePlane_y]
  constructor
  · exact le_min (by norm_num) (le_max_left _ _)
  · exact min_le_left _ _

/-- With no roll and no yaw, the forward vector is the pitch circle in the
xy-plane: unit length, so normalisation leaves it unchanged. -/
theorem forwardVec_pitch (pos : V3) (rz : ℝ) :
    forwardVec ⟨pos, 0, 0, rz⟩ = ⟨Real.cos rz, Real.sin rz, 0⟩ := by
  have h1 : eulerXYZ 0 0 rz ⟨1, 0, 0⟩ = ⟨Real.cos rz, Real.sin rz, 0⟩ := by
    simp [eulerXYZ, rotXv, rotYv, rotZv]
  have hlen : length ⟨Real.cos rz, Real.sin rz, 0⟩ = 1 := by
    simp only [length]
    rw [show Real.cos rz ^ 2 + Real.sin rz ^ 2 + 0 ^ 2
          = Real.sin rz ^ 2 + Real.cos rz ^ 2 by ring,
        Real.sin_sq_add_cos_sq, Real.sqrt_one]
  show normalize (eulerXYZ 0 0 rz ⟨1, 0, 0⟩) = _
  rw [h1]
  unfold normalize
  rw [hlen]
  norm_num

/-- Zero rotation sends local forward to world `+x`. -/
theorem forwardVec_zeroRot (pos : V3) : forwardVec ⟨pos, 0, 0, 0⟩ = ⟨1, 0, 0⟩ := by
  rw [forwardVec_pitch, Real.cos_zero, Real.sin_zero]

/-- Every component of a normalised vector is at most 1 in absolute value. -/
theorem normalize_abs_x_le_one (v : V3) : |(normalize v).x| ≤ 1 := by
  have hsum : (0:ℝ) ≤ v.x ^ 2 + v.y ^ 2 + v.z ^ 2 := by positivity
  have hxle : |v.x| ≤ length v := by
    rw [← Real.sqrt_sq_eq_abs]
    exact Real.sqrt_le_sqrt (by nlinarith [sq_nonneg v.y, sq_nonneg v.z])
  have hlnn : 0 ≤ length v := Real.sqrt_nonneg _
  unfold normalize
  dsimp only
  by_cases hl : length v = 0
  · have hx0 : v.x = 0 := by
      have := hxle.trans_eq hl
      exact abs_nonpos_iff.mp this
    rw [if_pos hl, hx0]
    norm_num
  · rw [if_neg hl, abs_div, abs_of_nonneg hlnn]
    exact div_le_one_of_le₀ hxle hlnn

/-- The plane's x-coordinate changes by at most `forwardSpeed` in one frame. -/
theorem planeTick_x_travel (k : Keys) (p : PlaneState) :
    |(planeTick k p).pos.x - p.pos.x| ≤ forwardSpeed := by
  unfold planeTick
  rw [updatePlane_x, updateControls_pos]
  rw [add_sub_cancel_left, abs_mul, abs_of_nonneg (by norm_num [forwardSpeed] : (0:ℝ) ≤ forwardSpeed)]
  calc forwardSpeed * |(forwardVec (updateControls k p)).x|
      ≤ forwardSpeed * 1 := by
        exact mul_le_mul_of_nonneg_left (normalize_abs_x_le_one _) (by norm_num [forwardSpeed])
    _ = forwardSpeed := mul_one _

/-- C7.  With no control held, one tick leaves the orientation unchanged and
moves the position by exactly `forwardSpeed = 0.2` along the forward vector of
the pre-tick orientation (the altitude additionally passing through the
clamp); in particular a tick from `(0, 2, 0)` with zero rotation yields
`(0.2, 2, 0)` with orientation unchanged. -/
theorem C7_no_input_tick (k : Keys) (p : PlaneState)
    (h : ∀ c ∈ recognizedCodes, isHeld k c = false) :
    updateControls k p = p ∧
    (planeTick k p).rotX = p.rotX ∧
    (planeTick k p).rotY = p.rotY ∧
    (planeTick k p).rotZ = p.rotZ ∧
    (planeTick k p).pos.x = p.pos.x + forwardSpeed * (forwardVec p).x ∧
    (planeTick k p).pos.z = p.pos.z + forwardSpeed * (forwardVec p).z ∧
    (planeTick k p).pos.y = min 20 (max 0.5 (p.pos.y + forwardSpeed * (forwardVec p).y)) ∧
    planeTick k ⟨⟨0, 2, 0⟩, 0, 0, 0⟩ = ⟨⟨0.2, 2, 0⟩, 0, 0, 0⟩ := by
  have hA := h "KeyA" (by simp [recognizedCodes])
  have hL := h "ArrowLeft" (by simp [recognizedCodes])
  have hD := h "KeyD" (by simp [recognizedCodes])
  have hR := h "ArrowRight" (by simp [recognizedCodes])
  have hW := h "KeyW" (by simp [recognizedCodes])
  have hU := h "ArrowUp" (by simp [recognizedCodes])
  have hS := h "KeyS" (by simp [recognizedCodes])
  have hDn := h "ArrowDown" (by simp [recognizedCodes])
  have hid : ∀ q : PlaneState, updateControls k q = q := by
    intro q
    simp [updateControls, hA, hL, hD, hR, hW, hU, hS, hDn]
  refine ⟨hid p, ?_, ?_, ?_, ?_, ?_, ?_, ?_⟩
  · rw [planeTick, hid p, updatePlane_rotX]
  · rw [planeTick, hid p, updatePlane_rotY]
  · rw [planeTick, hid p, updatePlane_rotZ]
  · rw [planeTick, hid p, updatePlane_x]
  · rw [planeTick, hid p, updatePlane_z]
  · rw [planeTick, hid p, updatePlane_y]
  · rw [planeTick, hid _]
    have hf := forwardVec_zeroRot ⟨0, 2, 0⟩
    unfold updatePlane
    rw [hf]
    dsimp only
    norm_num [forwardSpeed]

/-- Witness for C7 at the spec scenario with the empty key map. -/
theorem C7_no_input_tick_witness :
    planeTick (fun _ => none) ⟨⟨0, 2, 0⟩, 0, 0, 0⟩ = ⟨⟨0.2, 2, 0⟩, 0, 0, 0⟩ :=
  (C7_no_input_tick (fun _ => none) ⟨⟨0, 2, 0⟩, 0, 0, 0⟩
    (by intro c _; rfl)).2.2.2.2.2.2.2

/-- C8.  A pointer-leave or pointer-cancel event on a control's zone yields
exactly the same key map as an explicit pointer-up release, and in particular
leaves the control's flag reading as not held. -/
theorem C8_pointer_leave_cancel_like_release (code : String) (k : Keys) :
    pointerleaveEvent code k = pointerupEvent code k ∧
    pointercancelEvent code k = pointerupEvent code k ∧
    isHeld (pointerleaveEvent code k) code = false ∧
    isHeld (pointercancelEvent code k) code = false := by
  refine ⟨rfl, rfl, ?_, ?_⟩ <;>
    simp [pointerleaveEvent, pointercancelEvent, setKey, isHeld]

/-- C9 counterexample.  A key-down for the unrecognized code `KeyZ` does add
an entry for `KeyZ` to the mapping (the claim says the mapping never gains
one). -/
theorem C9_counterexample_keyz_gains_entry :
    "KeyZ" ∉ recognizedCodes ∧
    keydownEvent "KeyZ" (fun _ => none) "KeyZ" = some true := by
  constructor
  · simp [recognizedCodes]
  · simp [keydownEvent]

/-- C9 amended.  A key-down event adds an entry for every key code, including
unrecognized ones; unrecognized keys are ignored only because the per-frame
reader `updateControls` consults just the eight recognized codes, so its
result depends only on those entries. -/
theorem C9_amended_ignored_by_reader (code : String) (k k1 k2 : Keys) (p : PlaneState)
    (hagree : ∀ c ∈ recognizedCodes, isHeld k1 c = isHeld k2 c) :
    keydownEvent code k code = some true ∧
    updateControls k1 p = updateControls k2 p := by
  constructor
  · simp [keydownEvent]
  · have hA := hagree "KeyA" (by simp [recognizedCodes])
    have hL := hagree "ArrowLeft" (by simp [recognizedCodes])
    have hD := hagree "KeyD" (by simp [recognizedCodes])
    have hR := hagree "ArrowRight" (by simp [recognizedCodes])
    have hW := hagree "KeyW" (by simp [recognizedCodes])
    have hU := hagree "ArrowUp" (by simp [recognizedCodes])
    have hS := hagree "KeyS" (by simp [recognizedCodes])
    have hDn := hagree "ArrowDown" (by simp [recognizedCodes])
    unfold updateControls
    rw [hA, hL, hD, hR, hW, hU, hS, hDn]

/-- Witness for C9's amended claim: a map holding only the unrecognized
`KeyZ` drives `updateControls` exactly like the empty map. -/
theorem C9_amended_ignored_by_reader_witness :
    updateControls (fun c => if c = "KeyZ" then some true else none) ⟨⟨0, 2, 0⟩, 0, 0, 0⟩
      = updateControls (fun _ => none) ⟨⟨0, 2, 0⟩, 0, 0, 0⟩ :=
  (C9_amended_ignored_by_reader "KeyZ" (fun _ => none)
    (fun c => if c = "KeyZ" then some true else none) (fun _ => none) ⟨⟨0, 2, 0⟩, 0, 0, 0⟩
    (by intro c hc; fin_cases hc <;> simp [isHeld])).2

/-- Closed form of `updateControls` on the yaw angle, for every key map: each
direction contributes exactly one `rotationSpeed` when either or both of its
bindings are held, and nothing otherwise. -/
theorem updateControls_rotY_eq (k : Keys) (p : PlaneState) :
    (updateControls k p).rotY = p.rotY
      + (if isHeld k "KeyA" || isHeld k "ArrowLeft" then rotationSpeed else 0)
      - (if isHeld k "KeyD" || isHeld k "ArrowRight" then rotationSpeed else 0) := by
  unfold updateControls
  dsimp only
  split_ifs <;> ring

/-- Closed form of `updateControls` on the pitch angle, for every key map. -/
theorem updateControls_rotZ_eq (k : Keys) (p : PlaneState) :
    (updateControls k p).rotZ = p.rotZ
      + (if isHeld k "KeyW" || isHeld k "ArrowUp" then rotationSpeed else 0)
      - (if isHeld k "KeyS" || isHeld k "ArrowDown" then rotationSpeed else 0) := by
  unfold updateControls
  dsimp only
  split_ifs <;> ring

/-- C10.  In every frame, for every key map and state, each direction of each
logical control contributes exactly one `rotationSpeed` increment when either
or both of its bindings are held (the bindings combine by logical or and never
stack); in particular, for each of the four logical controls, a frame in which
both of its bindings are held and its opposing control is not (the other axis
arbitrary) changes the corresponding angle by exactly one increment, not two. -/
theorem C10_paired_bindings_single_increment (k : Keys) (p : PlaneState) :
    ((updateControls k p).rotY = p.rotY
      + (if isHeld k "KeyA" || isHeld k "ArrowLeft" then rotationSpeed else 0)
      - (if isHeld k "KeyD" || isHeld k "ArrowRight" then rotationSpeed else 0)) ∧
    ((updateControls k p).rotZ = p.rotZ
      + (if isHeld k "KeyW" || isHeld k "ArrowUp" then rotationSpeed else 0)
      - (if isHeld k "KeyS" || isHeld k "ArrowDown" then rotationSpeed else 0)) ∧
    (isHeld k "KeyA" = true → isHeld k "ArrowLeft" = true → isHeld k "KeyD" = false →
      isHeld k "ArrowRight" = false → (updateControls k p).rotY = p.rotY + rotationSpeed) ∧
    (isHeld k "KeyD" = true → isHeld k "ArrowRight" = true → isHeld k "KeyA" = false →
      isHeld k "ArrowLeft" = false → (updateControls k p).rotY = p.rotY - rotationSpeed) ∧
    (isHeld k "KeyW" = true → isHeld k "ArrowUp" = true → isHeld k "KeyS" = false →
      isHeld k "ArrowDown" = false → (updateControls k p).rotZ = p.rotZ + rotationSpeed) ∧
    (isHeld k "KeyS" = true → isHeld k "ArrowDown" = true → isHeld k "KeyW" = false →
      isHeld k "ArrowUp" = false → (updateControls k p).rotZ = p.rotZ - rotationSpeed) := by
  refine ⟨updateControls_rotY_eq k p, updateControls_rotZ_eq k p, ?_, ?_, ?_, ?_⟩
  · intro h1 h2 h3 h4
    rw [updateControls_rotY_eq, h1, h3, h4]
    norm_num
  · intro h1 h2 h3 h4
    rw [updateControls_rotY_eq, h1, h3, h4]
    norm_num
  · intro h1 h2 h3 h4
    rw [updateControls_rotZ_eq, h1, h3, h4]
    norm_num
  · intro h1 h2 h3 h4
    rw [updateControls_rotZ_eq, h1, h3, h4]
    norm_num

/-- Witness for C10 at the claim's own example frame: only `KeyA` and
`ArrowLeft` held (all other keys absent), yielding a single yaw increment. -/
theorem C10_paired_bindings_single_increment_witness :
    (updateControls
        (fun c => if c = "KeyA" ∨ c = "ArrowLeft" then some true else none)
        ⟨⟨0, 2, 0⟩, 0, 0, 0⟩).rotY = 0 + rotationSpeed :=
  (C10_paired_bindings_single_increment
    (fun c => if c = "KeyA" ∨ c = "ArrowLeft" then some true else none)
    ⟨⟨0, 2, 0⟩, 0, 0, 0⟩).2.2.1
    (by simp [isHeld]) (by simp [isHeld]) (by simp [isHeld]) (by simp [isHeld])

theorem tick_plane (k : Keys) (rnd : Fin MOUNTAIN_COUNT → ℝ × ℝ) (s : GameState) :
    (tick k rnd s).plane = planeTick k s.plane := rfl

theorem tick_mountains (k : Keys) (rnd : Fin MOUNTAIN_COUNT → ℝ × ℝ) (s : GameState)
    (i : Fin MOUNTAIN_COUNT) :
    (tick k rnd s).mountains i
      = updateMountain (planeTick k s.plane).pos.x (rnd i).1 (rnd i).2 (s.mountains i) := rfl

theorem recycleMountain_x (rz rh : ℝ) (m : Mountain) :
    (recycleMountain rz rh m).pos.x = m.pos.x + 400 := rfl

theorem recycleMountain_z (rz rh : ℝ) (m : Mountain) :
    (recycleMountain rz rh m).pos.z = rz * 40 - 20 := rfl

/-- Key maps with no entry at all drive `updateControls` as the identity. -/
theorem updateControls_none (p : PlaneState) : updateControls (fun _ => none) p = p := by
  simp [updateControls, isHeld]

theorem planeTick_none_x (pos : V3) :
    (planeTick (fun _ => none) ⟨pos, 0, 0, 0⟩).pos.x = pos.x + forwardSpeed := by
  rw [planeTick, updateControls_none, updatePlane_x, forwardVec_zeroRot]
  norm_num

/-- C2.  If at the start of a frame every marker is at most `BEHIND_THRESHOLD
= 100` behind the aircraft, then after the frame's recycling pass this still
holds, and a fortiori every gap stays below `100 + ε` with `ε = forwardSpeed`
the one-frame travel bound; so no marker is ever left arbitrarily far behind
across consecutive frames. -/
theorem C2_markers_never_far_behind (k : Keys) (rnd : Fin MOUNTAIN_COUNT → ℝ × ℝ)
    (s : GameState) (hinv : ∀ i, s.plane.pos.x - (s.mountains i).pos.x ≤ 100) :
    (∀ i, (tick k rnd s).plane.pos.x - ((tick k rnd s).mountains i).pos.x ≤ 100) ∧
    (∀ i, (tick k rnd s).plane.pos.x - ((tick k rnd s).mountains i).pos.x
        ≤ 100 + forwardSpeed) := by
  have htravel := planeTick_x_travel k s.plane
  rw [abs_le] at htravel
  have hmain : ∀ i, (tick k rnd s).plane.pos.x - ((tick k rnd s).mountains i).pos.x ≤ 100 := by
    intro i
    rw [tick_plane, tick_mountains]
    unfold updateMountain
    split_ifs with hc
    · rw [recycleMountain_x]
      have := hinv i
      have hfs : forwardSpeed = 0.2 := rfl
      linarith [htravel.2]
    · linarith [not_lt.mp hc]
  refine ⟨hmain, fun i => ?_⟩
  have hfs : forwardSpeed = 0.2 := rfl
  linarith [hmain i]

/-- Witness for C2 from a concrete state with all markers at the aircraft. -/
theorem C2_markers_never_far_behind_witness :
    (tick (fun _ => none) (fun _ => (0, 0))
        ⟨⟨⟨0, 2, 0⟩, 0, 0, 0⟩, fun _ => ⟨⟨0, 0, 0⟩, 1, 1⟩⟩).plane.pos.x
      - ((tick (fun _ => none) (fun _ => (0, 0))
        ⟨⟨⟨0, 2, 0⟩, 0, 0, 0⟩, fun _ => ⟨⟨0, 0, 0⟩, 1, 1⟩⟩).mountains
          ⟨0, by norm_num [MOUNTAIN_COUNT]⟩).pos.x ≤ 100 :=
  (C2_markers_never_far_behind (fun _ => none) (fun _ => (0, 0))
      ⟨⟨⟨0, 2, 0⟩, 0, 0, 0⟩, fun _ => ⟨⟨0, 0, 0⟩, 1, 1⟩⟩
      (by intro i; norm_num)).1 ⟨0, by norm_num [MOUNTAIN_COUNT]⟩

/-- C5.  A marker recycled in frame F (under the C2 invariant) is not eligible
for recycling again at any later frame in which the aircraft has not advanced
more than `RECYCLE_DISTANCE - BEHIND_THRESHOLD = 300` in x beyond its frame-F
position: its position stays put at the recycled x and the recycling condition
stays false. -/
theorem C5_recycled_marker_not_reeligible (k : Keys) (rnd : Fin MOUNTAIN_COUNT → ℝ × ℝ)
    (s : GameState) (i : Fin MOUNTAIN_COUNT)
    (inputs : ℕ → Keys × (Fin MOUNTAIN_COUNT → ℝ × ℝ))
    (hinv : s.plane.pos.x - (s.mountains i).pos.x ≤ 100)
    (hrec : (planeTick k s.plane).pos.x - (s.mountains i).pos.x > 100)
    (n : ℕ)
    (hadv : ∀ j ≤ n, (trajFrom inputs (tick k rnd s) j).plane.pos.x
              - (tick k rnd s).plane.pos.x ≤ 300) :
    ((trajFrom inputs (tick k rnd s) n).mountains i).pos.x = (s.mountains i).pos.x + 400 ∧
    (trajFrom inputs (tick k rnd s) n).plane.pos.x
      - ((trajFrom inputs (tick k rnd s) n).mountains i).pos.x ≤ 100 := by
  have htravel := planeTick_x_travel k s.plane
  rw [abs_le] at htravel
  have hfs : forwardSpeed = 0.2 := rfl
  have hpx1 : (tick k rnd s).plane.pos.x - (s.mountains i).pos.x ≤ 100 + 0.2 := by
    rw [tick_plane]
    linarith [htravel.2]
  induction n with
  | zero =>
    constructor
    · show ((tick k rnd s).mountains i).pos.x = _
      rw [tick_mountains]
      unfold updateMountain
      rw [if_pos hrec, recycleMountain_x]
    · show (tick k rnd s).plane.pos.x - ((tick k rnd s).mountains i).pos.x ≤ 100
      rw [tick_mountains]
      unfold updateMountain
      rw [if_pos hrec, recycleMountain_x]
      linarith [hpx1]
  | succ n ih =>
    have ihm := ih (fun j hj => hadv j (le_trans hj (Nat.le_succ n)))
    have hstep : trajFrom inputs (tick k rnd s) (n + 1)
        = tick (inputs n).1 (inputs n).2 (trajFrom inputs (tick k rnd s) n) := rfl
    have hnew := hadv (n + 1) le_rfl
    rw [hstep] at hnew ⊢
    have hnoc : ¬ ((planeTick (inputs n).1 (trajFrom inputs (tick k rnd s) n).plane).pos.x
        - ((trajFrom inputs (tick k rnd s) n).mountains i).pos.x > 100) := by
      rw [ihm.1]
      rw [tick_plane] at hnew
      push_neg
      linarith [hpx1]
    constructor
    · rw [tick_mountains]
      unfold updateMountain
      rw [if_neg hnoc]
      exact ihm.1
    · rw [tick_plane, tick_mountains]
      unfold updateMountain
      rw [if_neg hnoc, ihm.1]
      rw [tick_plane] at hnew
      linarith [hpx1]

/-- Witness for C5: a marker 99.9 behind is recycled on the next frame and is
then immediately more than 299 ahead, so not eligible. -/
theorem C5_recycled_marker_not_reeligible_witness :
    ((trajFrom (fun _ => ((fun _ => none), fun _ => (0, 0)))
        (tick (fun _ => none) (fun _ => (0, 0))
          ⟨⟨⟨0, 2, 0⟩, 0, 0, 0⟩, fun _ => ⟨⟨-99.9, 0, 0⟩, 1, 1⟩⟩) 0).mountains
        ⟨0, by norm_num [MOUNTAIN_COUNT]⟩).pos.x = -99.9 + 400 :=
  (C5_recycled_marker_not_reeligible (fun _ => none) (fun _ => (0, 0))
      ⟨⟨⟨0, 2, 0⟩, 0, 0, 0⟩, fun _ => ⟨⟨-99.9, 0, 0⟩, 1, 1⟩⟩ ⟨0, by norm_num [MOUNTAIN_COUNT]⟩
      (fun _ => ((fun _ => none), fun _ => (0, 0)))
      (by norm_num)
      (by rw [planeTick_none_x]; norm_num [forwardSpeed])
      0
      (by intro j hj; interval_cases j; simp [trajFrom])).1

/-- C6.  A recycle adds exactly 400 to the marker's x (so two markers recycled
against the same plane position keep their x-difference), the fresh z-draw
lands in `[-20, 20]`, and a marker sitting at `aircraft.x - 101` is recycled
by the next tick to `old x + 400`. -/
theorem C6_recycle_additive_x_banded_z (px rz rh rz2 rh2 : ℝ) (m m2 : Mountain)
    (k : Keys) (rnd : Fin MOUNTAIN_COUNT → ℝ × ℝ) (s : GameState) (i : Fin MOUNTAIN_COUNT)
    (h1 : px - m.pos.x > 100) (h2 : px - m2.pos.x > 100)
    (hrz0 : 0 ≤ rz) (hrz1 : rz < 1)
    (hsc : (s.mountains i).pos.x = s.plane.pos.x - 101) :
    (updateMountain px rz rh m).pos.x = m.pos.x + 400 ∧
    (updateMountain px rz rh m).pos.x - (updateMountain px rz2 rh2 m2).pos.x
      = m.pos.x - m2.pos.x ∧
    (-20 ≤ (updateMountain px rz rh m).pos.z ∧ (updateMountain px rz rh m).pos.z ≤ 20) ∧
    ((tick k rnd s).mountains i).pos.x = (s.mountains i).pos.x + 400 := by
  have hx : (updateMountain px rz rh m).pos.x = m.pos.x + 400 := by
    unfold updateMountain
    rw [if_pos h1, recycleMountain_x]
  have hx2 : (updateMountain px rz2 rh2 m2).pos.x = m2.pos.x + 400 := by
    unfold updateMountain
    rw [if_pos h2, recycleMountain_x]
  refine ⟨hx, by rw [hx, hx2]; ring, ?_, ?_⟩
  · have hz : (updateMountain px rz rh m).pos.z = rz * 40 - 20 := by
      unfold updateMountain
      rw [if_pos h1, recycleMountain_z]
    rw [hz]
    constructor <;> nlinarith
  · have htravel := planeTick_x_travel k s.plane
    rw [abs_le] at htravel
    have hfs : forwardSpeed = 0.2 := rfl
    have hc : (planeTick k s.plane).pos.x - (s.mountains i).pos.x > 100 := by
      rw [hsc]
      linarith [htravel.1]
    rw [tick_mountains]
    unfold updateMountain
    rw [if_pos hc, recycleMountain_x]

/-- Witness for C6 with concrete positions and draws. -/
theorem C6_recycle_additive_x_banded_z_witness :
    (updateMountain 200 0.5 0.3 ⟨⟨0, 0, 0⟩, 1, 1⟩).pos.x = 0 + 400 :=
  (C6_recycle_additive_x_banded_z 200 0.5 0.3 0.1 0.9 ⟨⟨0, 0, 0⟩, 1, 1⟩ ⟨⟨50, 0, 0⟩, 1, 1⟩
      (fun _ => none) (fun _ => (0, 0))
      ⟨⟨⟨0, 2, 0⟩, 0, 0, 0⟩, fun _ => ⟨⟨-101, 0, 0⟩, 1, 1⟩⟩ ⟨0, by norm_num [MOUNTAIN_COUNT]⟩
      (by norm_num) (by norm_num) (by norm_num) (by norm_num) (by norm_num)).1

/-- C3.  The code's recycling step does give the marker the drawn visual
height, but its `position.y = (newHeight * scale) / 2 - 0.5` leaves the base
at `newHeight^2 / (2 * templateHeight) - newHeight / 2 - 0.5`, not at the
ground plane `-0.5`: with template height 1 and drawn height 2.5 the recycled
cone's base floats at `1.375`. -/
theorem C3_recycled_base_leaves_ground :
    visualHeight (recycleMountain 0.5 0.5 ⟨⟨0, 0, 0⟩, 1, 1⟩) = 2.5 ∧
    (recycleMountain 0.5 0.5 ⟨⟨0, 0, 0⟩, 1, 1⟩).pos.y = 2.625 ∧
    baseY (recycleMountain 0.5 0.5 ⟨⟨0, 0, 0⟩, 1, 1⟩) = 1.375 ∧
    baseY (recycleMountain 0.5 0.5 ⟨⟨0, 0, 0⟩, 1, 1⟩) ≠ -0.5 := by
  norm_num [recycleMountain, visualHeight, baseY]

/-- Key map for the pitch-down scenario: only the `ArrowDown` control held. -/
def keysPitchDown : Keys := fun c => if c = "ArrowDown" then some true else none

/-- Start state of the pitch-down scenario: altitude `0.6`, zero rotation. -/
def c4start : PlaneState := ⟨⟨0, 0.6, 0⟩, 0, 0, 0⟩

/-- The pitch-down trajectory: one `planeTick` per frame with `ArrowDown` held. -/
def c4traj : ℕ → PlaneState
  | 0 => c4start
  | n + 1 => planeTick keysPitchDown (c4traj n)

/-- With only `ArrowDown` held, `updateControls` decrements the pitch angle. -/
theorem updateControls_pitchDown (p : PlaneState) :
    updateControls keysPitchDown p = { p with rotZ := p.rotZ - rotationSpeed } := by
  simp [updateControls, keysPitchDown, isHeld]

/-- The forward vector of a roll-free, yaw-free state is the pitch circle. -/
theorem forwardVec_of_rx_ry_zero (p : PlaneState) (hx : p.rotX = 0) (hy : p.rotY = 0) :
    forwardVec p = ⟨Real.cos p.rotZ, Real.sin p.rotZ, 0⟩ := by
  cases p with
  | mk pos rx ry rz =>
    dsimp at hx hy ⊢
    subst hx
    subst hy
    exact forwardVec_pitch pos rz

/-- Orientation along the pitch-down trajectory: yaw and roll stay zero and
the pitch angle after `n` frames is `-(rotationSpeed * n)`. -/
theorem c4traj_rot (n : ℕ) :
    (c4traj n).rotX = 0 ∧ (c4traj n).rotY = 0 ∧
    (c4traj n).rotZ = -(rotationSpeed * n) := by
  induction n with
  | zero => refine ⟨rfl, rfl, ?_⟩; norm_num [c4traj, c4start]
  | succ n ih =>
    have h1 : c4traj (n + 1) = planeTick keysPitchDown (c4traj n) := rfl
    rw [h1, planeTick, updateControls_pitchDown]
    refine ⟨?_, ?_, ?_⟩
    · rw [updatePlane_rotX]
      exact ih.1
    · rw [updatePlane_rotY]
      exact ih.2.1
    · rw [updatePlane_rotZ]
      dsimp
      rw [ih.2.2]
      push_cast
      ring

/-- Altitude recurrence of the pitch-down trajectory. -/
theorem c4traj_y_rec (n : ℕ) :
    (c4traj (n + 1)).pos.y
      = min 20 (max 0.5 ((c4traj n).pos.y
          - forwardSpeed * Real.sin (rotationSpeed * ((n : ℝ) + 1)))) := by
  have h1 : c4traj (n + 1) = planeTick keysPitchDown (c4traj n) := rfl
  have hq := updateControls_pitchDown (c4traj n)
  have hrot := c4traj_rot n
  have hx : (updateControls keysPitchDown (c4traj n)).rotX = 0 := by
    rw [hq]; exact hrot.1
  have hy : (updateControls keysPitchDown (c4traj n)).rotY = 0 := by
    rw [hq]; exact hrot.2.1
  have hz : (updateControls keysPitchDown (c4traj n)).rotZ
      = -(rotationSpeed * ((n : ℝ) + 1)) := by
    rw [hq]
    dsimp
    rw [hrot.2.2]
    ring
  rw [h1, planeTick, updatePlane_y, forwardVec_of_rx_ry_zero _ hx hy, hz, Real.sin_neg]
  have hpos : (updateControls keysPitchDown (c4traj n)).pos = (c4traj n).pos :=
    updateControls_pos _ _
  rw [hpos]
  ring_nf

/-- The altitude never drops below the clamp floor `0.5`. -/
theorem c4traj_y_lb (n : ℕ) : 0.5 ≤ (c4traj n).pos.y := by
  cases n with
  | zero => norm_num [c4traj, c4start]
  | succ n =>
    rw [c4traj_y_rec]
    exact le_min (by norm_num) (le_max_left _ _)

/-- Monotonicity of `sin` on the relevant initial segment. -/
theorem sin_le_sin_of_le {a b : ℝ} (ha : 0 ≤ a) (hab : a ≤ b) (hb : b ≤ 1.57) :
    Real.sin a ≤ Real.sin b := by
  have hpi : (3.14 : ℝ) < Real.pi := Real.pi_gt_d2
  exact Real.strictMonoOn_sin.monotoneOn
    (Set.mem_Icc.mpr ⟨by linarith, by linarith⟩)
    (Set.mem_Icc.mpr ⟨by linarith, by linarith⟩) hab

/-- One clamped descent step preserves an upper bound that descends by the
per-frame minimum drop. -/
theorem max_clamp_step {y B d dr : ℝ} (hy : y ≤ max 0.5 B) (hd : 0 ≤ d) (hdr : d ≤ dr) :
    max 0.5 (y - dr) ≤ max 0.5 (B - d) := by
  have h1 : y - dr ≤ max 0.5 B - d := sub_le_sub hy hdr
  have h2 : max 0.5 B - d = max (0.5 - d) (B - d) := (max_sub_sub_right 0.5 B d).symm
  refine max_le (le_max_left _ _) ?_
  refine le_trans (h1.trans h2.le) (max_le ?_ (le_max_right _ _))
  exact le_trans (by linarith) (le_max_left _ _)

/-- A lower bound on the per-frame minimum descent: `sin 0.02 > 0.019998`. -/
theorem sin_rotationSpeed_lb : 0.019998 < Real.sin rotationSpeed := by
  have h := Real.sin_gt_sub_cube
    (by norm_num [rotationSpeed] : (0 : ℝ) < rotationSpeed)
    (by norm_num [rotationSpeed] : rotationSpeed ≤ 1)
  have hval : rotationSpeed - rotationSpeed ^ 3 / 4 = (0.019998 : ℝ) := by
    norm_num [rotationSpeed]
  linarith [hval ▸ h]

/-- Descent envelope for the first 26 frames: the altitude is bounded by the
start altitude minus `n` times the minimum per-frame drop (clamped at 0.5). -/
theorem c4traj_y_ub (n : ℕ) (hn : n ≤ 26) :
    (c4traj n).pos.y
      ≤ max 0.5 (0.6 - forwardSpeed * Real.sin rotationSpeed * n) := by
  induction n with
  | zero =>
    norm_num [c4traj, c4start]
  | succ n ih =>
    have hn' : n ≤ 26 := le_trans (Nat.le_succ n) hn
    have ihy := ih (le_trans (Nat.le_succ n) hn)
    have hdrop : forwardSpeed * Real.sin rotationSpeed
        ≤ forwardSpeed * Real.sin (rotationSpeed * ((n : ℝ) + 1)) := by
      have hcast : ((n : ℝ) + 1) ≤ 26 := by
        have : ((n : ℝ)) ≤ 25 := by exact_mod_cast Nat.lt_succ_iff.mp (Nat.lt_of_succ_le hn)
        linarith
      have hmono : Real.sin rotationSpeed ≤ Real.sin (rotationSpeed * ((n : ℝ) + 1)) := by
        apply sin_le_sin_of_le (by norm_num [rotationSpeed])
        · have hn0 : (0 : ℝ) ≤ (n : ℝ) := Nat.cast_nonneg n
          nlinarith [mul_nonneg (by norm_num [rotationSpeed] : (0:ℝ) ≤ rotationSpeed) hn0]
        · norm_num [rotationSpeed]
          linarith
      exact mul_le_mul_of_nonneg_left hmono (by norm_num [forwardSpeed])
    have hd0 : (0 : ℝ) ≤ forwardSpeed * Real.sin rotationSpeed := by
      have := sin_rotationSpeed_lb
      norm_num [forwardSpeed]
      linarith
    rw [c4traj_y_rec]
    refine le_trans (min_le_right _ _) ?_
    have hstep := max_clamp_step ihy hd0 hdrop
    refine le_trans hstep ?_
    have : 0.6 - forwardSpeed * Real.sin rotationSpeed * (n : ℝ)
        - forwardSpeed * Real.sin rotationSpeed
        = 0.6 - forwardSpeed * Real.sin rotationSpeed * ((n : ℕ) + 1 : ℕ) := by
      push_cast
      ring
    rw [this]

/-- By frame 26 the altitude has hit the clamp floor exactly. -/
theorem c4traj_y_26 : (c4traj 26).pos.y = 0.5 := by
  have hub := c4traj_y_ub 26 le_rfl
  have hδ := sin_rotationSpeed_lb
  have hle : (0.6 : ℝ) - forwardSpeed * Real.sin rotationSpeed * (26 : ℕ) ≤ 0.5 := by
    have : (0.2 : ℝ) * 0.019998 * 26 = 0.1039896 := by norm_num
    push_cast
    norm_num [forwardSpeed]
    nlinarith
  rw [max_eq_left hle] at hub
  exact le_antisymm hub (c4traj_y_lb 26)

/-- The altitude stays pinned at the floor from frame 26 through frame 157
(while the accumulated pitch has not yet passed a half-turn). -/
theorem c4traj_y_pinned (n : ℕ) (h26 : 26 ≤ n) (h157 : n ≤ 157) :
    (c4traj n).pos.y = 0.5 := by
  induction n, h26 using Nat.le_induction with
  | base => exact c4traj_y_26
  | succ n hn ih =>
    have ihy := ih (le_trans (Nat.le_succ n) h157)
    rw [c4traj_y_rec, ihy]
    have hs : 0 ≤ Real.sin (rotationSpeed * ((n : ℝ) + 1)) := by
      apply Real.sin_nonneg_of_nonneg_of_le_pi
      · have : (0:ℝ) ≤ (n : ℝ) := Nat.cast_nonneg n
        norm_num [rotationSpeed]
        linarith
      · have hcast : ((n : ℝ) + 1) ≤ 157 := by
          have : ((n : ℝ)) ≤ 156 := by exact_mod_cast Nat.lt_succ_iff.mp (Nat.lt_of_succ_le h157)
          linarith
        have hpi : (3.14 : ℝ) < Real.pi := Real.pi_gt_d2
        have : rotationSpeed * ((n : ℝ) + 1) ≤ 3.14 := by
          norm_num [rotationSpeed]
          linarith
        linarith
    have hin : 0.5 - forwardSpeed * Real.sin (rotationSpeed * ((n : ℝ) + 1)) ≤ 0.5 := by
      have : 0 ≤ forwardSpeed * Real.sin (rotationSpeed * ((n : ℝ) + 1)) := by
        apply mul_nonneg (by norm_num [forwardSpeed]) hs
      linarith
    rw [max_eq_left hin, min_eq_right (by norm_num)]

/-- At frame 158 the accumulated pitch is `-3.16`, past `-π`, so the forward
vector points upward again and the altitude leaves the floor. -/
theorem c4traj_y_158 : 0.5 < (c4traj 158).pos.y := by
  have h157 : (c4traj 157).pos.y = 0.5 := c4traj_y_pinned 157 (by norm_num) le_rfl
  have hrec := c4traj_y_rec 157
  have hangle : rotationSpeed * (((157 : ℕ) : ℝ) + 1) = 3.16 := by
    push_cast
    norm_num [rotationSpeed]
  have hpi : (3.14 : ℝ) < Real.pi := Real.pi_gt_d2
  have hpi2 : Real.pi < 3.15 := Real.pi_lt_d2
  have hsin : Real.sin (3.16 : ℝ) < 0 := by
    have h2 : Real.sin ((3.16 : ℝ) - 2 * Real.pi + 2 * Real.pi) = Real.sin ((3.16 : ℝ) - 2 * Real.pi) :=
      Real.sin_add_two_pi _
    have h3 : ((3.16 : ℝ) - 2 * Real.pi + 2 * Real.pi) = 3.16 := by ring
    rw [h3] at h2
    rw [h2]
    apply Real.sin_neg_of_neg_of_neg_pi_lt
    · linarith
    · linarith
  have hsge : (-1 : ℝ) ≤ Real.sin (3.16 : ℝ) := Real.neg_one_le_sin _
  rw [hrec, h157, hangle]
  have hin : (0.5 : ℝ) < 0.5 - forwardSpeed * Real.sin (3.16 : ℝ) := by
    have : forwardSpeed * Real.sin (3.16 : ℝ) < 0 := by
      apply mul_neg_of_pos_of_neg (by norm_num [forwardSpeed]) hsin
    linarith
  have hin20 : (0.5 : ℝ) - forwardSpeed * Real.sin (3.16 : ℝ) ≤ 20 := by
    norm_num [forwardSpeed]
    nlinarith
  rw [max_eq_right (by linarith), min_eq_right hin20]
  exact hin

/-- C4 counterexample.  In the pitch-down scenario from altitude 0.6 the
aircraft does reach the floor (frame 26), but it does not stay pinned on every
subsequent tick while pitch-down is held: at frame 158 the altitude exceeds
0.5 again. -/
theorem C4_counterexample_pin_is_lost :
    (c4traj 26).pos.y = 0.5 ∧ 0.5 < (c4traj 158).pos.y :=
  ⟨c4traj_y_26, c4traj_y_158⟩

/-- C4 amended.  Starting at altitude 0.6 with pitch-down held, the altitude
never drops below 0.5, reaches exactly 0.5 by tick 26, and stays pinned at 0.5
through tick 157; from tick 158, once the accumulated pitch passes a
half-turn, continued pitch-down raises the altitude above 0.5 again. -/
theorem C4_amended_pinned_until_half_turn :
    (∀ n, 0.5 ≤ (c4traj n).pos.y) ∧
    (c4traj 26).pos.y = 0.5 ∧
    (∀ n, 26 ≤ n → n ≤ 157 → (c4traj n).pos.y = 0.5) ∧
    0.5 < (c4traj 158).pos.y :=
  ⟨c4traj_y_lb, c4traj_y_26, c4traj_y_pinned, c4traj_y_158⟩

/-- Witness for C4's amended claim at tick 100. -/
theorem C4_amended_pinned_until_half_turn_witness : (c4traj 100).pos.y = 0.5 :=
  C4_amended_pinned_until_half_turn.2.2.1 100 (by norm_num) (by norm_num)

end PlaneGame
